import Mathlib

/-!
Verification development for `horizon_contrib/tables/base.py`.

The file shallowly embeds the table machinery of the repository:
`ModelTableMetaclass.__new__` (column/action collection), `ModelTable.__init__`
(model-to-column mapping and registry merge), and `PaginationMixin`
(page resolution over a Django `Paginator`).

External facilities (Python 2 builtins, CPython 2.7 `dict`, Django's
`SortedDict`, `Paginator` and `fields_for_model`, the horizon options
constructor) are embedded from their documented/implemented behavior, since
the source under study calls into them.
-/

namespace HorizonContrib

/-! ## Python 2 primitives -/

/-- Python 2 whitespace accepted by `int(...)` around the digits. -/
def pySpace (c : Char) : Bool :=
  c = ' ' || c = '\t' || c = '\n' || c = '\x0d' || c = '\x0b' || c = '\x0c'

/-- `int(s)` on a Python 2 `str`: optional surrounding whitespace, an optional
sign, then a nonempty run of ASCII digits; `none` models the `ValueError`. -/
def pyIntStr (s : String) : Option Int :=
  let cs := ((s.toList.dropWhile pySpace).reverse.dropWhile pySpace).reverse
  let core : Option (Int × List Char) :=
    match cs with
    | [] => none
    | c :: rest =>
      if c = '-' then some (-1, rest)
      else if c = '+' then some (1, rest)
      else some (1, c :: rest)
  match core with
  | none => none
  | some (sign, digits) =>
    if digits.isEmpty || !(digits.all Char.isDigit) then none
    else some (sign * (digits.foldl (fun a c => 10 * a + (c.toNat - 48)) 0 : Nat))

/-- A Python value that is either an `int` or a `str`; `Paginator.page` and
`PAGINATION_COUNT` accept both. -/
inductive PyNum where
  | int (n : Int)
  | str (s : String)
  deriving DecidableEq, Repr

/-- `int(v)` for an int-or-str value. -/
def pyIntOf : PyNum → Option Int
  | .int n => some n
  | .str s => pyIntStr s

/-! ## CPython 2.7 small dictionary

`ModelTable.__init__` collects the synthesized columns in a plain `{}` dict,
whose iteration order is the open-addressing slot order of CPython 2.7
(8 slots, hash randomization off, no deletions).  We model exactly that:
the 64-bit string hash, the perturb probe sequence, and slot-order iteration.
The resize that CPython performs once `fill * 3 >= size * 2` (i.e. at the
6th distinct key) is not modelled; every dictionary evaluated in this
development stays at or below 5 keys. -/

/-- `2 ^ 64`, the wrap-around modulus of the C `long` arithmetic. -/
def U64 : Nat := 18446744073709551616

/-- CPython 2.7 `string_hash` on a 64-bit build (hash randomization off),
read as an unsigned 64-bit value. -/
def pyStrHash (s : String) : Nat :=
  match s.toList with
  | [] => 0
  | c :: _ =>
    let x0 := (c.toNat <<< 7) % U64
    let x := s.toList.foldl (fun x ch => ((1000003 * x) % U64) ^^^ ch.toNat) x0
    let x := x ^^^ s.length
    if x = U64 - 1 then U64 - 2 else x

/-- Is slot `i` of the 8-slot table free for `key` (empty, or already holding
`key`)?  There are no deletions, so no dummy slots exist. -/
def slotFree (tbl : List (Option String)) (i : Nat) (key : String) : Bool :=
  match tbl.getD i none with
  | none => true
  | some k => k = key

/-- The perturb probe loop of CPython `lookdict_string`:
`i = i*5 + perturb + 1; perturb >>= 5`, slots taken mod 8.  Fuel bounds the
search; CPython terminates because a free slot always exists below the
resize threshold. -/
def probeLoop (tbl : List (Option String)) (key : String) :
    Nat → Nat → Nat → Nat
  | 0, i, _ => i % 8
  | fuel + 1, i, perturb =>
    let i2 := (i * 5 + perturb + 1) % U64
    if slotFree tbl (i2 % 8) key then i2 % 8
    else probeLoop tbl key fuel i2 (perturb / 32)

/-- The slot at which CPython 2.7 places (or finds) `key` in the 8-slot table. -/
def findSlot (tbl : List (Option String)) (key : String) : Nat :=
  let h := pyStrHash key
  let i0 := h % 8
  if slotFree tbl i0 key then i0
  else probeLoop tbl key 64 i0 h

/-- Insert each key in order into an empty 8-slot table. -/
def py2DictTable (keys : List String) : List (Option String) :=
  keys.foldl (fun tbl k => tbl.set (findSlot tbl k) (some k)) (List.replicate 8 none)

/-- Iteration order of a CPython 2.7 dict built by inserting `keys` in order:
occupied slots read in slot order. -/
def py2DictKeys (keys : List String) : List String :=
  (py2DictTable keys).foldr (fun o acc => match o with | some k => k :: acc | none => acc) []

/-- `dict(...)` items in iteration order; for a duplicated key the value of the
last binding wins, as in Python. -/
def py2DictItems {β : Type} (pairs : List (String × β)) : List (String × β) :=
  (py2DictKeys (pairs.map Prod.fst)).filterMap
    (fun k => ((pairs.reverse.find? (fun p => p.1 = k)).map (fun p => (k, p.2))))

/-! ## Django `SortedDict`

`SortedDict` keeps keys in first-insertion order; setting an existing key
overwrites the value in place, setting a new key appends it. -/

/-- `SortedDict.__setitem__`. -/
def sdSet {β : Type} (d : List (String × β)) (k : String) (v : β) : List (String × β) :=
  if d.any (fun p => p.1 = k) then d.map (fun p => if p.1 = k then (k, v) else p)
  else d ++ [(k, v)]

/-- `SortedDict(list_of_pairs)`: first occurrence fixes the position, the last
binding fixes the value. -/
def sortedDictOfList {β : Type} (l : List (String × β)) : List (String × β) :=
  l.foldl (fun d kv => sdSet d kv.1 kv.2) []

/-- `SortedDict.update(other)`: iterate `other` and set each pair. -/
def sdUpdate {β : Type} (d other : List (String × β)) : List (String × β) :=
  other.foldl (fun d kv => sdSet d kv.1 kv.2) d

/-! ## Python `list.sort(key=...)` : a stable insertion sort -/

/-- Insert `a` before the first element `b` with `le a b`; stable for equal
keys when the element being inserted originally preceded the list. -/
def insertLe {α : Type} (le : α → α → Bool) (a : α) : List α → List α
  | [] => [a]
  | b :: bs => if le a b then a :: b :: bs else b :: insertLe le a bs

/-- Stable sort by the boolean relation `le` (used for `creation_counter`,
action names, and allow-list indices). -/
def sortLe {α : Type} (le : α → α → Bool) (l : List α) : List α :=
  l.foldr (insertLe le) []

/-- `list(set(xs))` modulo order: keep the first occurrence of each element.
CPython's set iteration order is unspecified; theorems that depend on the
result are proved for every pool, so the particular order fixed here is
immaterial. -/
def dedupKeepFirst {α : Type} [DecidableEq α] (l : List α) : List α :=
  l.foldl (fun acc a => if a ∈ acc then acc else acc ++ [a]) []

/-! ## Errors raised by the embedded code -/

inductive PyErr where
  /-- plain `Exception(msg)` -/
  | exception (msg : String)
  /-- `NotImplementedError(msg)` -/
  | notImplemented (msg : String)
  /-- `ValueError(msg)` -/
  | valueError (msg : String)
  /-- `KeyError(key)` -/
  | keyError (key : String)
  /-- `django.core.paginator.PageNotAnInteger` -/
  | pageNotAnInteger
  /-- `django.core.paginator.EmptyPage` -/
  | emptyPage
  /-- `RuntimeError(msg)` -/
  | runtimeError (msg : String)
  /-- `UnboundLocalError` on the named local variable -/
  | unboundLocal (nm : String)
  deriving DecidableEq, Repr

/-! ## Data model -/

/-- The one value filter used by the source: `filters.filter_m2m`. -/
inductive Filter where
  | m2m
  deriving DecidableEq, Repr

/-- A Django form field as produced by `fields_for_model`: model-derived form
fields always carry a `label` string (`capfirst` of the model field's
verbose name). -/
structure FormField where
  label : String
  deriving DecidableEq, Repr

/-- A model field: its name and the form field its `formfield()` yields.
`mc.fields` lists the editable fields in model declaration order, which is
the order `fields_for_model` iterates them in. -/
structure DjangoField where
  name : String
  formfield : FormField
  deriving DecidableEq, Repr

/-- A Django model class, restricted to what the source introspects:
the field list and the names of the many-to-many fields. -/
structure ModelClass where
  fields : List DjangoField
  many_to_many : List String
  deriving DecidableEq, Repr

/-- `Meta.model_class` (or a `model_class` class attribute): a direct model
class or a content-type string resolved through `get_class`. -/
inductive ModelRef where
  | direct (m : ModelClass)
  | byName (s : String)
  deriving DecidableEq, Repr

/-- A horizon table column, restricted to the attributes the source reads or
writes: `name`, `verbose_name`, `form_field`, `filters`, `classes`, `auto`,
`creation_counter`. -/
structure Column where
  name : String := ""
  verbose_name : String := ""
  form_field : Option FormField := none
  filters : List Filter := []
  classes : List String := []
  auto : Option String := none
  creation_counter : Nat := 0
  deriving DecidableEq, Repr

/-- A declared action class; `id` stands for Python object identity, so two
distinct classes may share a `name`. -/
structure ActionClass where
  name : String
  id : Nat := 0
  deriving DecidableEq, Repr

/-- The instance obtained by calling the action class once: `action()`. -/
structure ActionInstance where
  cls : ActionClass
  deriving DecidableEq, Repr

/-- `action()`. -/
def ActionClass.instantiate (c : ActionClass) : ActionInstance := ⟨c⟩

/-- The options object `ModelTableOptions(attrs.get("Meta"))` hands to the
metaclass.  Defaults (`model_class = None`, `columns = None`, ...) are
applied by the external options constructors; the embedding receives the
resolved values. -/
structure TableOpts where
  model_class : Option ModelRef := none
  order_by : String := "-id"
  columns : Option (List String) := none
  multi_select : Bool := true
  actions_column : Bool := true
  browser_table : Option String := none
  row_actions : List ActionClass := []
  table_actions : List ActionClass := []
  filter_action : Option ActionClass := none
  deriving DecidableEq, Repr

/-- The class-level state `ModelTableMetaclass.__new__` stores on the new
class: `base_columns`, `_columns`, `base_actions` and the (possibly
replaced) filter action, plus the options and class name. -/
structure TableCls where
  name : String
  opts : TableOpts
  base_columns : List (String × Column)
  cols : List (String × Column)
  base_actions : List (String × ActionInstance)
  filter_action_inst : Option ActionInstance
  deriving DecidableEq, Repr

/-! ## `ModelTableMetaclass.__new__` -/

/-- `columns.sort(key=lambda x: x[1].creation_counter)`. -/
def leCounter (x y : String × Column) : Bool :=
  x.2.creation_counter ≤ y.2.creation_counter

/-- `actions.sort(key=attrgetter('name'))`: Python 2 compares strings
lexicographically by character code, which is the `List Char` order on the
names (equivalent to `String` order, `String.le_iff_toList_le`). -/
def leName (x y : ActionClass) : Bool :=
  x.name.toList ≤ y.name.toList

/-- The action registry: sort the deduplicated action classes alphabetically
by name and build `SortedDict([(action.name, action()) for action in
actions])`; each listed class is called exactly once. -/
def buildActions (pool : List ActionClass) : List (String × ActionInstance) :=
  sortedDictOfList ((sortLe leName pool).map (fun c => (c.name, c.instantiate)))

/-- Python truthiness of `opts.columns` (`None` and `[]` are falsy). -/
def allowListTruthy : Option (List String) → Bool
  | some (_ :: _) => true
  | _ => false

/-- `ModelTableMetaclass.__new__(mcs, name, bases, attrs)`.

`declared` are the column-typed attributes found in the class body (in the
unspecified order of the `attrs` dict — the code sorts them by
`creation_counter`, so the order given here is irrelevant); `bases` lists
`base.base_columns.items()` for each base that has them, in MRO order. -/
def modelTableMetaclassNew (name : String) (opts : TableOpts)
    (declared : List (String × Column)) (bases : List (List (String × Column))) :
    Except PyErr TableCls :=
  -- column_instance.name = attr_name; classes.append('normal_column')
  let tagged := declared.map (fun p =>
    (p.1, { p.2 with name := p.1, classes := p.2.classes ++ ["normal_column"] }))
  -- columns.sort(key=lambda x: x[1].creation_counter)
  let sorted := sortLe leCounter tagged
  -- for base in bases[::-1]: columns = base.base_columns.items() + columns
  let columns := bases.reverse.foldl (fun acc b => b ++ acc) sorted
  let base_columns := sortedDictOfList columns
  if opts.browser_table = some "navigation" ∧ columns.length > 3 then
    .error (.valueError ("You can only assign three column to " ++ name ++ "."))
  else if opts.browser_table = some "content" ∧ columns.length > 2 then
    .error (.valueError ("You can only assign two columns to " ++ name ++ "."))
  else
    -- if opts.columns: drop undeclared names, then sort by allow-list index
    let columns :=
      if allowListTruthy opts.columns then
        let allow := opts.columns.getD []
        sortLe (fun x y => (allow.findIdx (fun n => n = x.1)) ≤ (allow.findIdx (fun n => n = y.1)))
          (columns.filter (fun p => allow.contains p.1))
      else columns
    -- auto-generated columns
    let columns :=
      if opts.multi_select ∧ opts.browser_table ≠ some "navigation" then
        ("multi_select",
          ({ name := "multi_select", verbose_name := "", auto := some "multi_select",
             classes := ["multi_select_column"] } : Column)) :: columns
      else columns
    let columns :=
      if opts.actions_column then
        columns ++ [("actions",
          ({ name := "actions", verbose_name := "Actions", auto := some "actions",
             classes := ["actions_column"] } : Column))]
      else columns
    let colsDict := sortedDictOfList columns
    -- actions = list(set(opts.row_actions) | set(opts.table_actions))
    let pool := dedupKeepFirst (opts.row_actions ++ opts.table_actions)
    let base_actions := buildActions pool
    match opts.filter_action with
    | none =>
      .ok { name := name, opts := opts, base_columns := base_columns,
            cols := colsDict, base_actions := base_actions, filter_action_inst := none }
    | some fa =>
      -- opts._filter_action = actions_dict[opts._filter_action.name]
      match base_actions.find? (fun p => p.1 = fa.name) with
      | some p =>
        .ok { name := name, opts := opts, base_columns := base_columns,
              cols := colsDict, base_actions := base_actions,
              filter_action_inst := some p.2 }
      | none => .error (.keyError fa.name)

/-! ## `ModelTable.__init__` : model-to-column mapping and registry merge -/

/-- Modelled from the spec: `get_class` from
`horizon_contrib.common.content_type` is not under `src/`; the spec
describes it as an external content-type registry resolving a string
identifier to a model class, whose resolution failure propagates as-is.
We take the registry as a function; `none` makes `get_class` raise. -/
def ContentTypeRegistry : Type := String → Option ModelClass

/-- The message of the `Exception` raised by `ModelTable._model_class` when
no model reference is resolvable (the line continuation inside the Python
string literal contributes 28 spaces). -/
def missingModelMsg : String :=
  "Missing model_class or override one " ++ "".pushn ' ' 28 ++
    "of get_table_data, get_paginator_data"

/-- Message of the (unreachable) `NotImplementedError` in
`ModelTable.__init__` (the line continuation contributes 38 spaces). -/
def notImplMsgModel (clsName : String) : String :=
  "You must define either a model_class or" ++ "".pushn ' ' 38 ++
    "\"get_table_data\" " ++ "method on " ++ clsName ++ "."

/-- Python truthiness of the resolved `mcls` value: `None` and the empty
string are falsy, a class object is truthy. -/
def pyTruthyRef : Option ModelRef → Bool
  | none => false
  | some (.byName s) => s ≠ ""
  | some (.direct _) => true

/-- `ModelTable._model_class`:
`mcs = getattr(self._meta, "model_class", ...)` (the options constructor
always sets the attribute), string references resolve through `get_class`
and are stored on `self.model_class`, then
`mcls = getattr(self, "model_class", mcs)` and a falsy `mcls` raises the
generic `Exception`. -/
def resolveModelClass (reg : ContentTypeRegistry)
    (meta_mc attr_mc : Option ModelRef) : Except PyErr ModelRef :=
  let mcs := meta_mc
  let step : Except PyErr (Option ModelRef) :=
    match mcs with
    | some (.byName s) =>
      match reg s with
      | some m => .ok (some (.direct m))
      | none => .error (.exception ("content type " ++ s ++ " not found"))
    | _ => .ok attr_mc
  match step with
  | .error e => .error e
  | .ok attr =>
    let mcls : Option ModelRef :=
      match attr with
      | some r => some r
      | none => mcs
    if pyTruthyRef mcls then .ok (mcls.getD (.byName ""))
    else .error (.exception missingModelMsg)

/-- `django.forms.models.fields_for_model(model, fields=...)` (Django 1.6):
keep the named editable fields in model order, then, when a nonempty
`fields` list is given, rebuild the dict in the order of that list with
`field_dict.get(f)` — so a listed name missing from the model maps to
`None`. -/
def fieldsForModel (mc : ModelClass) (fields : Option (List String)) :
    List (String × Option FormField) :=
  let field_list := (mc.fields.filter (fun f =>
      match fields with
      | none => true
      | some l => l.contains f.name)).map (fun f => (f.name, f.formfield))
  match fields with
  | some l =>
    if l.isEmpty then field_list.map (fun p => (p.1, some p.2))
    else sortedDictOfList
      (l.map (fun n => (n, (field_list.find? (fun p => p.1 = n)).map Prod.snd)))
  | none => field_list.map (fun p => (p.1, some p.2))

/-- The loop body of `ModelTable.__init__`: one synthesized column.
`verbose_name = getattr(field, "label", name)` — a model-derived form field
always carries its `label` string, and a `None` field (no `label`
attribute) falls back to the field name; `form_field` is the field object;
a many-to-many field name attaches `filters = (filter_m2m,)`. -/
def synthColumn (many : List String) (n : String) (field : Option FormField) : Column :=
  { name := n,
    verbose_name := match field with
                    | some f => f.label
                    | none => n,
    form_field := field,
    filters := if many.contains n then [Filter.m2m] else [],
    classes := [],
    auto := none,
    creation_counter := 0 }

/-- All columns synthesized by the `ModelTable.__init__` loop, in the
iteration order of the `fields_for_model` result. -/
def makeModelColumns (mc : ModelClass) (allow : Option (List String)) :
    List (String × Column) :=
  (fieldsForModel mc allow).map (fun p => (p.1, synthColumn mc.many_to_many p.1 p.2))

/-- The per-instance state `ModelTable.__init__` produces: the resolved
model, the merged column registry, and the class-level action registry the
instance shares. -/
structure TableInstance where
  model_class : ModelClass
  columns : List (String × Column)
  base_actions : List (String × ActionInstance)
  deriving DecidableEq, Repr

/-- `ModelTable.__init__(request, ...)` for a table of class `cls`, with
`attr_model_class` the `model_class` class attribute if one is declared.

The two `super().__init__` calls into horizon rebuild the per-instance
column set from `self._columns`, so the registry below stands for both.
The synthesized columns and the popped `"actions"` column pass through a
plain `{}` dict (`py2DictItems`) before `SortedDict.update` merges them in.
`has_get_table_data` is always `True` — `ModelTable` itself defines
`get_table_data` — so the `NotImplementedError` guard (whose second
conjunct is then short-circuited away) can never fire. -/
def modelTableInit (reg : ContentTypeRegistry) (cls : TableCls)
    (attr_model_class : Option ModelRef) : Except PyErr TableInstance :=
  match resolveModelClass reg cls.opts.model_class attr_model_class with
  | .error e => .error e
  | .ok (.byName s) =>
    -- a string that was never resolved reaches fields_for_model and blows up
    .error (.exception ("fields_for_model on non-model " ++ s))
  | .ok (.direct mc) =>
    let modelCols := makeModelColumns mc cls.opts.columns
    match cls.cols.find? (fun p => p.1 = "actions") with
    | none => .error (.keyError "actions")   -- self._columns.pop("actions")
    | some pa =>
      let remaining := cls.cols.filter (fun p => p.1 ≠ "actions")
      let localItems := py2DictItems (modelCols ++ [("actions", pa.2)])
      let registry := sdUpdate remaining localItems
      let has_get_table_data := true
      if has_get_table_data then
        .ok { model_class := mc, columns := registry, base_actions := cls.base_actions }
      else
        .error (.notImplemented (notImplMsgModel cls.name))

/-- `PaginatedTable.__init__` / `PaginatedModelTable.__init__` (identical
bodies): select the paginated template, run `ModelTable.__init__`, then an
equally unreachable `NotImplementedError` guard (`get_paginator_data` is
defined by `PaginationMixin`), then
`PAGINATION_COUNT = getattr(settings, "PAGINATION_COUNT", "25")`. -/
def paginatedModelTableInit (reg : ContentTypeRegistry) (cls : TableCls)
    (attr_model_class : Option ModelRef) (settings_pc : Option PyNum) :
    Except PyErr (TableInstance × PyNum) :=
  match modelTableInit reg cls attr_model_class with
  | .error e => .error e
  | .ok inst => .ok (inst, settings_pc.getD (.str "25"))

/-! ## Django `Paginator` (1.6 era: `per_page` coerced with `int`, `orphans`
0, `allow_empty_first_page` true) -/

structure Paginator (α : Type) where
  object_list : List α
  per_page : Int
  deriving DecidableEq, Repr

def Paginator.count {α : Type} (p : Paginator α) : Nat :=
  p.object_list.length

/-- `int(ceil(max(1, count) / float(per_page)))`; faithful for
`per_page > 0`, the only regime this code ever builds. -/
def Paginator.num_pages {α : Type} (p : Paginator α) : Int :=
  if 0 < p.per_page then ((max 1 p.count : Int) + p.per_page - 1) / p.per_page
  else 0

/-- `Paginator.validate_number`: `int(number)` failure raises
`PageNotAnInteger`; a number below 1 or beyond `num_pages` raises
`EmptyPage` (page 1 of an empty paginator is allowed). -/
def Paginator.validate_number {α : Type} (p : Paginator α) (v : PyNum) :
    Except PyErr Int :=
  match pyIntOf v with
  | none => .error .pageNotAnInteger
  | some n =>
    if n < 1 then .error .emptyPage
    else if n > p.num_pages then
      if n = 1 then .ok 1 else .error .emptyPage
    else .ok n

/-- `Paginator.page(number).object_list`: the slice
`object_list[(number-1)*per_page : (number-1)*per_page + per_page]`. -/
def Paginator.page {α : Type} (p : Paginator α) (v : PyNum) :
    Except PyErr (List α) :=
  match p.validate_number v with
  | .error e => .error e
  | .ok n => .ok ((p.object_list.drop ((n - 1) * p.per_page).toNat).take p.per_page.toNat)

/-! ## `PaginationMixin` -/

/-- The mixin's per-instance state.  `data` is the dataset
`get_paginator_data()` returns (for the model tables: the model's records
in the configured order — an external fetch). -/
structure MixinState (α : Type) where
  page : String := "1"
  pagination : Bool := true
  position : String := "bottom"
  show_all_url : Bool := true
  PAGINATION_COUNT : PyNum := .str "25"
  _paginator : Option (Paginator α) := none
  data : List α
  deriving DecidableEq, Repr

/-- `get_paginator_data` (generic implementation: `self.get_table_data()`). -/
def get_paginator_data {α : Type} (st : MixinState α) : List α :=
  st.data

/-- The `paginator` property: return the cached instance or build
`Paginator(self.get_paginator_data(), self.PAGINATION_COUNT)`; a failure in
the constructor (`int(per_page)`) propagates (`raise e`). -/
def paginatorOf {α : Type} (st : MixinState α) : Except PyErr (Paginator α) :=
  match st._paginator with
  | some p => .ok p
  | none =>
    match pyIntOf st.PAGINATION_COUNT with
    | some n => .ok ⟨st.data, n⟩
    | none => .error (.valueError "invalid literal for int()")

/-- The `get_page` property: `int(self.page)`, any failure swallowed into
`None`. -/
def get_page {α : Type} (st : MixinState α) : Option Int :=
  pyIntStr st.page

/-- `get_page_data(page)`: build/fetch the paginator (a `Paginator` instance
is truthy, so the `RuntimeError` branch is unreachable and the instance is
cached), store a truthy `page` token, then take the requested page —
catching only `EmptyPage`, clamped to the last page — or, on the `"all"`
token with `show_all_url`, the whole dataset; if neither branch assigns
`objects`, `return objects` raises `UnboundLocalError`. -/
def get_page_data {α : Type} (st : MixinState α) (page : String) :
    Except PyErr (MixinState α × List α) :=
  match paginatorOf st with
  | .error e => .error e
  | .ok pag =>
    let st := { st with _paginator := some pag }
    let st := if page ≠ "" then { st with page := page } else st
    if st.page ≠ "all" then
      match pag.page (.str st.page) with
      | .ok objects => .ok (st, objects)
      | .error .emptyPage =>
        match pag.page (.int pag.num_pages) with
        | .ok objects => .ok (st, objects)
        | .error e => .error e
      | .error e => .error e
    else if st.show_all_url then
      .ok (st, get_paginator_data st)
    else
      .error (.unboundLocal "objects")

/-- `previous_page_number`. -/
def previous_page_number {α : Type} (st : MixinState α) : Option Int :=
  (get_page st).map (fun p => p - 1)

/-- `next_page_number`. -/
def next_page_number {α : Type} (st : MixinState α) : Option Int :=
  (get_page st).map (fun p => p + 1)

/-- `has_previous`: false when no page is resolved or the page is 1. -/
def has_previous {α : Type} (st : MixinState α) : Bool :=
  match get_page st with
  | none => false
  | some p => if p = 1 then false else true

/-- `has_next`: false when no page is resolved; otherwise compares
`get_page + 1` with `paginator.num_pages` (building the paginator if
needed, whose failure propagates). -/
def has_next {α : Type} (st : MixinState α) : Except PyErr Bool :=
  match get_page st with
  | none => .ok false
  | some p =>
    match paginatorOf st with
    | .error e => .error e
    | .ok pag => .ok (if p + 1 > pag.num_pages then false else true)

/-- `has_more_data`: the extensibility hook, constantly false. -/
def has_more_data {α : Type} (_st : MixinState α) : Bool :=
  false

/-! ## Concrete fixtures used by the theorems -/

/-- A paginated table over 30 records with the default page size `"25"`. -/
def pagState30 : MixinState Nat :=
  { data := List.range 30 }

/-- A content-type registry that resolves nothing. -/
def regEmpty : ContentTypeRegistry :=
  fun _ => none

/-- A model with a scalar field `name` and a many-to-many field `tags`. -/
def mcTags : ModelClass :=
  { fields := [⟨"name", ⟨"Name"⟩⟩, ⟨"tags", ⟨"Tags"⟩⟩], many_to_many := ["tags"] }

/-- Table options binding `mcTags` directly, everything else default. -/
def optsTags : TableOpts :=
  { model_class := some (.direct mcTags) }

/-- A declared column carrying only its creation counter. -/
def counterColumn (k : Nat) : Column :=
  { creation_counter := k }

/-- Options declaring two distinct action classes that share the name
`"delete"`. -/
def dupActionOpts : TableOpts :=
  { row_actions := [⟨"delete", 0⟩], table_actions := [⟨"delete", 1⟩] }

/-- The class-level state of a table declaring no model and no columns
(what `ModelTableMetaclass.__new__` yields for it, spelled out). -/
def noModelCls : TableCls :=
  { name := "NoModel", opts := {}, base_columns := [],
    cols := [("multi_select", { name := "multi_select", verbose_name := "",
                                auto := some "multi_select",
                                classes := ["multi_select_column"] }),
             ("actions", { name := "actions", verbose_name := "Actions",
                           auto := some "actions",
                           classes := ["actions_column"] })],
    base_actions := [], filter_action_inst := none }

/-! ## Helper lemmas about the sorting and `SortedDict` models -/

theorem length_insertLe {α : Type} (le : α → α → Bool) (a : α) (l : List α) :
    (insertLe le a l).length = l.length + 1 := by
  induction l with
  | nil => rfl
  | cons b bs ih =>
    simp only [insertLe]
    split
    · simp
    · simp [ih]

theorem length_sortLe {α : Type} (le : α → α → Bool) (l : List α) :
    (sortLe le l).length = l.length := by
  induction l with
  | nil => rfl
  | cons a as ih => simp [sortLe, List.foldr] at ih ⊢; simp [length_insertLe, ih]

theorem mem_insertLe {α : Type} (le : α → α → Bool) (a x : α) (l : List α) :
    x ∈ insertLe le a l ↔ x = a ∨ x ∈ l := by
  induction l with
  | nil => simp [insertLe]
  | cons b bs ih =>
    simp only [insertLe]
    split
    · simp [List.mem_cons]
    · simp [List.mem_cons, ih]; tauto

theorem mem_sortLe {α : Type} (le : α → α → Bool) (x : α) (l : List α) :
    x ∈ sortLe le l ↔ x ∈ l := by
  induction l with
  | nil => simp [sortLe]
  | cons a as ih =>
    simp only [sortLe, List.foldr] at ih ⊢
    simp [mem_insertLe, ih, List.mem_cons]

theorem pairwise_insertLe {α : Type} (le : α → α → Bool)
    (htot : ∀ a b, le a b = true ∨ le b a = true)
    (htrans : ∀ a b c, le a b = true → le b c = true → le a c = true)
    (a : α) (l : List α) (h : l.Pairwise (fun x y => le x y = true)) :
    (insertLe le a l).Pairwise (fun x y => le x y = true) := by
  induction l with
  | nil => simp [insertLe]
  | cons b bs ih =>
    rcases List.pairwise_cons.mp h with ⟨hb, hbs⟩
    simp only [insertLe]
    split
    · rename_i hab
      refine List.pairwise_cons.mpr ⟨?_, h⟩
      intro y hy
      rcases List.mem_cons.mp hy with rfl | hy
      · exact hab
      · exact htrans a b y hab (hb y hy)
    · rename_i hab
      have hba : le b a = true := (htot a b).resolve_left hab
      refine List.pairwise_cons.mpr ⟨?_, ih hbs⟩
      intro y hy
      rcases (mem_insertLe le a y bs).mp hy with rfl | hy
      · exact hba
      · exact hb y hy

theorem pairwise_sortLe {α : Type} (le : α → α → Bool)
    (htot : ∀ a b, le a b = true ∨ le b a = true)
    (htrans : ∀ a b c, le a b = true → le b c = true → le a c = true)
    (l : List α) : (sortLe le l).Pairwise (fun x y => le x y = true) := by
  induction l with
  | nil => simp [sortLe]
  | cons a as ih =>
    simpa only [sortLe, List.foldr] using
      pairwise_insertLe le htot htrans a _ ih

theorem keys_sdSet {β : Type} (d : List (String × β)) (k : String) (v : β) :
    (sdSet d k v).map Prod.fst =
      if d.any (fun p => p.1 = k) then d.map Prod.fst
      else d.map Prod.fst ++ [k] := by
  simp only [sdSet]
  split
  · simp only [List.map_map]
    refine List.map_congr_left ?_
    intro p _
    by_cases hp : p.1 = k
    · simp [hp, Function.comp]
    · simp [hp, Function.comp]
  · simp

theorem key_mem_sdSet {β : Type} (d : List (String × β)) (k k2 : String) (v : β)
    (h : k2 ∈ d.map Prod.fst ∨ k2 = k) :
    k2 ∈ (sdSet d k v).map Prod.fst := by
  rw [keys_sdSet]
  split
  · rename_i hany
    rcases h with h | rfl
    · exact h
    · rcases List.any_eq_true.mp hany with ⟨p, hp, hpk⟩
      have : p.1 = k2 := of_decide_eq_true hpk
      exact this ▸ List.mem_map_of_mem Prod.fst hp
  · rcases h with h | rfl
    · exact List.mem_append_left _ h
    · exact List.mem_append_right _ (by simp)

theorem keys_foldl_sdSet_sublist {β : Type} (l : List (String × β)) :
    ∀ d : List (String × β),
      ((l.foldl (fun d kv => sdSet d kv.1 kv.2) d).map Prod.fst).Sublist
        (d.map Prod.fst ++ l.map Prod.fst) := by
  induction l with
  | nil => intro d; simp
  | cons x xs ih =>
    intro d
    simp only [List.foldl_cons, List.map_cons]
    have h1 := ih (sdSet d x.1 x.2)
    rw [keys_sdSet] at h1
    by_cases hany : d.any (fun p => p.1 = x.1)
    · rw [if_pos hany] at h1
      refine h1.trans ?_
      refine List.Sublist.append_left ?_ _
      exact List.sublist_cons_self x.1 (xs.map Prod.fst)
    · rw [if_neg hany] at h1
      refine h1.trans ?_
      simp only [List.append_assoc, List.singleton_append]
      exact List.Sublist.refl _

theorem keys_foldl_sdSet_nodup {β : Type} (l : List (String × β)) :
    ∀ d : List (String × β), (d.map Prod.fst).Nodup →
      ((l.foldl (fun d kv => sdSet d kv.1 kv.2) d).map Prod.fst).Nodup := by
  induction l with
  | nil => intro d hd; simpa using hd
  | cons x xs ih =>
    intro d hd
    simp only [List.foldl_cons]
    refine ih _ ?_
    rw [keys_sdSet]
    split
    · exact hd
    · rename_i hany
      have hk : x.1 ∉ d.map Prod.fst := by
        intro hmem
        rcases List.mem_map.mp hmem with ⟨p, hp, hpk⟩
        exact hany (List.any_eq_true.mpr ⟨p, hp, decide_eq_true hpk⟩)
      simp [List.nodup_append, hd, hk]

theorem mem_foldl_sdSet {β : Type} (l : List (String × β)) :
    ∀ (d : List (String × β)) (p : String × β),
      p ∈ l.foldl (fun d kv => sdSet d kv.1 kv.2) d → p ∈ d ∨ p ∈ l := by
  induction l with
  | nil => intro d p hp; exact Or.inl (by simpa using hp)
  | cons x xs ih =>
    intro d p hp
    simp only [List.foldl_cons] at hp
    rcases ih _ p hp with hp | hp
    · simp only [sdSet] at hp
      split at hp
      · rcases List.mem_map.mp hp with ⟨q, hq, hqe⟩
        by_cases hqk : q.1 = x.1
        · right
          have hpx : p = x := by rw [← hqe, if_pos hqk]
          exact hpx ▸ List.mem_cons_self x xs
        · left
          rw [← hqe, if_neg hqk]
          exact hq
      · rcases List.mem_append.mp hp with hp | hp
        · exact Or.inl hp
        · right
          have hpx : p = x := by simpa using hp
          exact hpx ▸ List.mem_cons_self x xs
    · exact Or.inr (List.mem_cons_of_mem x hp)

theorem key_mem_foldl_sdSet {β : Type} (l : List (String × β)) :
    ∀ (d : List (String × β)) (k : String),
      k ∈ d.map Prod.fst ∨ k ∈ l.map Prod.fst →
      k ∈ (l.foldl (fun d kv => sdSet d kv.1 kv.2) d).map Prod.fst := by
  induction l with
  | nil => intro d k h; simpa using h.resolve_right (by simp)
  | cons x xs ih =>
    intro d k h
    simp only [List.foldl_cons]
    refine ih _ k ?_
    rcases h with h | h
    · exact Or.inl (key_mem_sdSet d x.1 k x.2 (Or.inl h))
    · simp only [List.map_cons] at h
      rcases List.mem_cons.mp h with rfl | h
      · exact Or.inl (key_mem_sdSet d x.1 x.1 x.2 (Or.inr rfl))
      · exact Or.inr h

theorem foldl_prepend_length {β : Type} (bs : List (List β)) :
    ∀ acc : List β,
      (bs.foldl (fun a b => b ++ a) acc).length =
        acc.length + (bs.map List.length).sum := by
  induction bs with
  | nil => intro acc; simp
  | cons b bt ih =>
    intro acc
    simp only [List.foldl_cons, List.map_cons, List.sum_cons]
    rw [ih]
    simp [List.length_append]
    omega

/-! ## Claims -/

/-- C1 (counterexample): a table class declaring neither a model reference
nor a data-fetch override does not raise `NotImplementedError` at instance
construction — it raises the generic `Exception` from `_model_class`
instead (the construction of the class itself succeeds). -/
theorem C1_counterexample :
    (modelTableMetaclassNew "NoModel" {} [] []).map
        (fun c => modelTableInit regEmpty c none) =
      .ok (.error (.exception missingModelMsg)) ∧
    (modelTableMetaclassNew "NoModel" {} [] []).map
        (fun c => match modelTableInit regEmpty c none with
                  | .error (.notImplemented _) => true
                  | _ => false) = .ok false := by
  exact ⟨rfl, rfl⟩

/-- C1 (amended): constructing a `ModelTable` (or paginated variant) whose
class defines no model reference fails at instance construction, but with
the generic `Exception` `missingModelMsg` raised while resolving the model
for field introspection — not `NotImplementedError`, whose guard cannot
fire because `ModelTable` itself defines `get_table_data`. -/
theorem C1_no_model_raises_generic_exception (reg : ContentTypeRegistry)
    (cls : TableCls) (spc : Option PyNum)
    (h : cls.opts.model_class = none) :
    modelTableInit reg cls none = .error (.exception missingModelMsg) ∧
    paginatedModelTableInit reg cls none spc =
      .error (.exception missingModelMsg) := by
  have h1 : modelTableInit reg cls none = .error (.exception missingModelMsg) := by
    simp [modelTableInit, resolveModelClass, h, pyTruthyRef]
  exact ⟨h1, by simp [paginatedModelTableInit, h1]⟩

/-- C1 (witness): the amended statement at the concrete model-less class. -/
theorem C1_witness :
    modelTableInit regEmpty noModelCls none = .error (.exception missingModelMsg) :=
  (C1_no_model_raises_generic_exception regEmpty noModelCls none rfl).1

/-- C2: on a paginated table over 30 records with page size 25, page `"1"`
yields the first 25 records with has-next and no has-previous, page `"2"`
yields the remaining 5 with has-previous and no has-next, and page `"99"`
clamps to page 2's records. -/
theorem C2_thirty_records_pages :
    (get_page_data pagState30 "1").map
        (fun r => (r.2, has_next r.1, has_previous r.1)) =
      .ok ((List.range 30).take 25, .ok true, false) ∧
    (get_page_data pagState30 "2").map
        (fun r => (r.2, has_next r.1, has_previous r.1)) =
      .ok ((List.range 30).drop 25, .ok false, true) ∧
    (get_page_data pagState30 "99").map (fun r => r.2) =
      (get_page_data pagState30 "2").map (fun r => r.2) := by
  exact ⟨rfl, rfl, rfl⟩

/-- C3 (counterexample): the page token `"foo"` neither is `"all"` nor
parses as an integer, yet `get_page_data` with it raises
`PageNotAnInteger` to the caller instead of treating it as "no specific
page". -/
theorem C3_counterexample :
    get_page_data pagState30 "foo" = .error .pageNotAnInteger := by
  rfl

/-- C3 (amended): for every page token that is not `"all"`, is nonempty
(an empty token is falsy and never stored) and does not parse as an
integer, `get_page` swallows the parse failure and returns the no-page
sentinel `none` — but `get_page_data` with that token raises
`PageNotAnInteger`, since only `EmptyPage` is caught. -/
theorem C3_parse_failure_swallowed_only_in_get_page (tok : String)
    (hparse : pyIntStr tok = none) (hall : tok ≠ "all") (hne : tok ≠ "") :
    (∀ st : MixinState Nat, st.page = tok → get_page st = none) ∧
    (∀ (st : MixinState Nat) (pag : Paginator Nat),
      paginatorOf st = .ok pag →
      get_page_data st tok = .error .pageNotAnInteger) := by
  constructor
  · intro st hst
    simp [get_page, hst, hparse]
  · intro st pag hpag
    simp [get_page_data, hpag, hne, hall, Paginator.page,
      Paginator.validate_number, pyIntOf, hparse]

/-- C3 (witness): the amended statement instantiated at token `"foo"` on
the 30-record table. -/
theorem C3_witness :
    get_page ({ pagState30 with page := "foo" }) = none := by
  have h := C3_parse_failure_swallowed_only_in_get_page "foo" (by decide)
    (by decide) (by decide)
  exact h.1 { pagState30 with page := "foo" } rfl

/-- C7 (evaluation): a `ModelTable` bound to a model with fields `name` and
`tags` ends up with column registry order
`multi_select, name, actions, tags` — the `"actions"` column is not last,
because the merge goes through a plain CPython dict whose iteration order
is hash-driven. -/
theorem C7_actions_column_not_last :
    (modelTableMetaclassNew "ProjectTable" optsTags [] []).map
        (fun c => (modelTableInit regEmpty c none).map
          (fun i => i.columns.map Prod.fst)) =
      .ok (.ok ["multi_select", "name", "actions", "tags"]) ∧
    ["multi_select", "name", "actions", "tags"].getLast? ≠ some "actions" := by
  exact ⟨rfl, by decide⟩

/-- C8: with show-all enabled, `get_page_data "all"` returns the complete
unpaged dataset regardless of the configured page size and of the initial
page token. -/
theorem C8_all_returns_unpaged_dataset (data : List Nat) (page0 : String)
    (cnt : PyNum) (n : Int) (hcnt : pyIntOf cnt = some n) :
    (get_page_data ({ page := page0, show_all_url := true, PAGINATION_COUNT := cnt, data := data } : MixinState Nat) "all").map
      (fun r => r.2) = .ok data := by
  simp [get_page_data, paginatorOf, hcnt, get_paginator_data, Except.map]

/-- C8 (witness): three records, page size `"7"`. -/
theorem C8_witness :
    (get_page_data ({ page := "1", show_all_url := true, PAGINATION_COUNT := .str "7", data := [0, 1, 2] } : MixinState Nat) "all").map
      (fun r => r.2) = .ok [0, 1, 2] :=
  C8_all_returns_unpaged_dataset [0, 1, 2] "1" (.str "7") 7 (by decide)

/-- C10: with the `"all"` token but show-all disabled, no branch of
`get_page_data` assigns `objects`, and `return objects` raises
`UnboundLocalError`. -/
theorem C10_all_without_show_all_unbound_local (st : MixinState Nat)
    (pag : Paginator Nat) (hshow : st.show_all_url = false)
    (hpag : paginatorOf st = .ok pag) :
    get_page_data st "all" = .error (.unboundLocal "objects") := by
  simp [get_page_data, hpag, hshow]

/-- C10 (witness): the 30-record table with show-all turned off. -/
theorem C10_witness :
    get_page_data ({ pagState30 with show_all_url := false }) "all" =
      .error (.unboundLocal "objects") :=
  C10_all_without_show_all_unbound_local { pagState30 with show_all_url := false }
    ⟨List.range 30, 25⟩ rfl rfl

/-- C4: class construction fails with a `ValueError` naming the class when
the declared-plus-inherited column count exceeds 3 in a `"navigation"`
browser context or 2 in a `"content"` context, for every table class; with
4 (resp. 3) columns the concrete classes fail while 3 (resp. 2) succeed. -/
theorem C4_browser_context_column_limits :
    (∀ (name : String) (opts : TableOpts) (declared : List (String × Column))
       (bases : List (List (String × Column))),
       opts.browser_table = some "navigation" →
       3 < declared.length + (bases.map List.length).sum →
       modelTableMetaclassNew name opts declared bases =
         .error (.valueError ("You can only assign three column to " ++ name ++ "."))) ∧
    (∀ (name : String) (opts : TableOpts) (declared : List (String × Column))
       (bases : List (List (String × Column))),
       opts.browser_table = some "content" →
       2 < declared.length + (bases.map List.length).sum →
       modelTableMetaclassNew name opts declared bases =
         .error (.valueError ("You can only assign two columns to " ++ name ++ "."))) ∧
    modelTableMetaclassNew "NavTable" { browser_table := some "navigation" }
      [("a", counterColumn 0), ("b", counterColumn 1), ("c", counterColumn 2), ("d", counterColumn 3)] [] =
      .error (.valueError "You can only assign three column to NavTable.") ∧
    (modelTableMetaclassNew "NavTable" { browser_table := some "navigation" }
      [("a", counterColumn 0), ("b", counterColumn 1), ("c", counterColumn 2)] []).isOk = true ∧
    modelTableMetaclassNew "CtTable" { browser_table := some "content" }
      [("a", counterColumn 0), ("b", counterColumn 1), ("c", counterColumn 2)] [] =
      .error (.valueError "You can only assign two columns to CtTable.") ∧
    (modelTableMetaclassNew "CtTable" { browser_table := some "content" }
      [("a", counterColumn 0), ("b", counterColumn 1)] []).isOk = true := by
  refine ⟨?_, ?_, by rfl, by rfl, by rfl, by rfl⟩
  · intro name opts declared bases hnav hlen
    have hlen2 : 3 < (bases.reverse.foldl (fun acc b => b ++ acc)
        (sortLe leCounter (declared.map (fun p =>
          (p.1, { p.2 with name := p.1, classes := p.2.classes ++ ["normal_column"] }))))).length := by
      rw [foldl_prepend_length, length_sortLe, List.length_map,
        List.map_reverse, List.sum_reverse]
      omega
    simp only [modelTableMetaclassNew]
    split_ifs with h1
    · rfl
    all_goals exact absurd ⟨hnav, hlen2⟩ h1
  · intro name opts declared bases hcon hlen
    have hlen2 : 2 < (bases.reverse.foldl (fun acc b => b ++ acc)
        (sortLe leCounter (declared.map (fun p =>
          (p.1, { p.2 with name := p.1, classes := p.2.classes ++ ["normal_column"] }))))).length := by
      rw [foldl_prepend_length, length_sortLe, List.length_map,
        List.map_reverse, List.sum_reverse]
      omega
    simp only [modelTableMetaclassNew]
    split_ifs with h1 h2
    · rw [hcon] at h1
      simp at h1
    · rfl
    all_goals exact absurd ⟨hcon, hlen2⟩ h2

/-- C4 (witness): the navigation limit applied to a 4-column class through
the general statement. -/
theorem C4_witness :
    modelTableMetaclassNew "W" { browser_table := some "navigation" }
      [("a", counterColumn 0), ("b", counterColumn 1), ("c", counterColumn 2), ("d", counterColumn 3)] [] =
      .error (.valueError "You can only assign three column to W.") :=
  C4_browser_context_column_limits.1 "W" { browser_table := some "navigation" }
    [("a", counterColumn 0), ("b", counterColumn 1), ("c", counterColumn 2), ("d", counterColumn 3)] []
    rfl (by decide)

/-- C6: for every action pool (any iteration order of
`set(row_actions) | set(table_actions)`), the registry built at
class-definition time has no duplicate names, is sorted alphabetically by
name, contains every declared name, and each of its entries is the
one-time instantiation of a declared action class; concretely, two
distinct action classes sharing the name `"delete"` collapse to a single
registry entry. -/
theorem C6_action_registry_dedup_sorted (pool : List ActionClass) :
    ((buildActions pool).map Prod.fst).Nodup ∧
    ((buildActions pool).map Prod.fst).Pairwise (fun a b => a ≤ b) ∧
    (∀ c ∈ pool, c.name ∈ (buildActions pool).map Prod.fst) ∧
    (∀ q ∈ buildActions pool, ∃ c ∈ pool, c.name = q.1 ∧ q.2 = c.instantiate) ∧
    (modelTableMetaclassNew "ActTable" dupActionOpts [] []).map
        (fun c => c.base_actions) =
      .ok [("delete", ActionClass.instantiate ⟨"delete", 1⟩)] := by
  have htot : ∀ a b : ActionClass, leName a b = true ∨ leName b a = true := by
    intro a b
    simp only [leName, decide_eq_true_eq]
    exact le_total a.name.toList b.name.toList
  have htrans : ∀ a b c : ActionClass,
      leName a b = true → leName b c = true → leName a c = true := by
    intro a b c hab hbc
    simp only [leName, decide_eq_true_eq] at hab hbc ⊢
    exact le_trans hab hbc
  simp only [buildActions, sortedDictOfList]
  refine ⟨?_, ?_, ?_, ?_, by rfl⟩
  · exact keys_foldl_sdSet_nodup _ [] (by simp)
  · have hsub := keys_foldl_sdSet_sublist
      ((sortLe leName pool).map (fun c => (c.name, c.instantiate))) []
    simp only [List.map_nil, List.nil_append] at hsub
    have hpw := pairwise_sortLe leName htot htrans pool
    have hmap : ((sortLe leName pool).map (fun c => (c.name, c.instantiate))).Pairwise
        (fun p q : String × ActionInstance => p.1 ≤ q.1) :=
      List.Pairwise.map _ (fun a b hab => by
        simp only [leName, decide_eq_true_eq] at hab
        exact String.le_iff_toList_le.mpr hab) hpw
    have hkeys : (((sortLe leName pool).map (fun c => (c.name, c.instantiate))).map
        Prod.fst).Pairwise (fun a b : String => a ≤ b) :=
      List.Pairwise.map _ (fun p q h => h) hmap
    exact List.Pairwise.sublist hsub hkeys
  · intro c hc
    refine key_mem_foldl_sdSet _ [] c.name (Or.inr ?_)
    exact List.mem_map_of_mem Prod.fst
      (List.mem_map_of_mem (fun c => (c.name, c.instantiate))
        ((mem_sortLe leName c pool).mpr hc))
  · intro q hq
    have hmem := mem_foldl_sdSet
      ((sortLe leName pool).map (fun c => (c.name, c.instantiate))) [] q hq
    rcases hmem with h | h
    · cases h
    · rcases List.mem_map.mp h with ⟨c, hc, rfl⟩
      exact ⟨c, (mem_sortLe leName c pool).mp hc, rfl, rfl⟩

/-- C6 (witness): the registry of a single declared action contains its
name. -/
theorem C6_witness :
    ("a" : String) ∈ (buildActions [⟨"a", 0⟩]).map Prod.fst :=
  (C6_action_registry_dedup_sorted [⟨"a", 0⟩]).2.2.1 ⟨"a", 0⟩ (by simp)

/-- C9: every column synthesized from the model fields carries the
multi-value filter `filter_m2m` exactly when its field is among the
model's many-to-many fields, its label is the form field's declared label,
falling back to the field name when no field object exists; on a concrete
model, the instance registry column `tags` (m2m) carries the filter while
`name` (scalar) does not. -/
theorem C9_m2m_filter_and_labels :
    (∀ (mc : ModelClass) (allow : Option (List String)) (p : String × Column),
       p ∈ makeModelColumns mc allow →
       (p.1 ∈ mc.many_to_many → p.2.filters = [Filter.m2m]) ∧
       (p.1 ∉ mc.many_to_many → p.2.filters = []) ∧
       (∀ f : FormField, p.2.form_field = some f → p.2.verbose_name = f.label) ∧
       (p.2.form_field = none → p.2.verbose_name = p.1)) ∧
    (modelTableMetaclassNew "ProjectTable" optsTags [] []).map
        (fun c => (modelTableInit regEmpty c none).map
          (fun i => ((i.columns.find? (fun q => q.1 = "tags")).map (fun q => q.2.filters),
                     (i.columns.find? (fun q => q.1 = "name")).map (fun q => q.2.filters)))) =
      .ok (.ok (some [Filter.m2m], some [])) := by
  refine ⟨?_, by rfl⟩
  intro mc allow p hp
  rcases List.mem_map.mp hp with ⟨⟨qn, qf⟩, _, rfl⟩
  refine ⟨?_, ?_, ?_, ?_⟩
  · intro hm
    simp only [synthColumn]
    rw [if_pos (by simpa [List.elem_iff] using hm)]
  · intro hm
    simp only [synthColumn]
    rw [if_neg (by simpa [List.elem_iff] using hm)]
  · intro f hf
    simp only [synthColumn] at hf
    subst hf
    simp [synthColumn]
  · intro hf
    simp only [synthColumn] at hf
    subst hf
    simp [synthColumn]

/-- C5: for a table class declaring columns `A`, `B`, `C` (listed in the
class-body dict in arbitrary order; creation counters record declaration
order) with no allow-list, the base columns are in declaration order; with
the allow-list `[C, A]`, the unlisted `B` is dropped and the final registry
is exactly `multi_select, C, A, actions`. -/
theorem C5_declaration_order_and_allow_list (nA nB nC : String)
    (hAB : nA ≠ nB) (hAC : nA ≠ nC) (hBC : nB ≠ nC)
    (hAm : nA ≠ "multi_select") (hCm : nC ≠ "multi_select")
    (hAa : nA ≠ "actions") (hCa : nC ≠ "actions") :
    (modelTableMetaclassNew "T" {}
        [(nB, counterColumn 1), (nC, counterColumn 2), (nA, counterColumn 0)] []).map
        (fun c => c.base_columns.map Prod.fst) = .ok [nA, nB, nC] ∧
    (modelTableMetaclassNew "T" { columns := some [nC, nA] }
        [(nB, counterColumn 1), (nC, counterColumn 2), (nA, counterColumn 0)] []).map
        (fun c => c.cols.map Prod.fst) = .ok ["multi_select", nC, nA, "actions"] := by
  constructor <;>
    simp [modelTableMetaclassNew, counterColumn, leCounter, sortLe, insertLe,
      sortedDictOfList, sdSet, allowListTruthy, buildActions, dedupKeepFirst,
      Except.map, List.findIdx_cons, List.filter_cons,
      hAB, hAC, hBC, hAB.symm, hAC.symm, hBC.symm,
      hAm, hCm, hAa, hCa, hAm.symm, hCm.symm, hAa.symm, hCa.symm]

/-- C5 (witness): the concrete class declaring `a`, `b`, `c` with allow-list
`[c, a]`. -/
theorem C5_witness :
    (modelTableMetaclassNew "T" { columns := some ["c", "a"] }
        [("b", counterColumn 1), ("c", counterColumn 2), ("a", counterColumn 0)] []).map
        (fun c => c.cols.map Prod.fst) = .ok ["multi_select", "c", "a", "actions"] :=
  (C5_declaration_order_and_allow_list "a" "b" "c" (by decide) (by decide)
    (by decide) (by decide) (by decide) (by decide) (by decide)).2

/-- C9 (witness): the `tags` column synthesized from the concrete model
carries the multi-value filter. -/
theorem C9_witness :
    (synthColumn mcTags.many_to_many "tags" (some ⟨"Tags"⟩)).filters = [Filter.m2m] :=
  ((C9_m2m_filter_and_labels.1 mcTags none
      ("tags", synthColumn mcTags.many_to_many "tags" (some ⟨"Tags"⟩))
      (by decide)).1 (by decide))

end HorizonContrib
